import Mathlib

/-!
Verification of the tiny-agent-framework repository: a shallow embedding of
the tool registry, schema inferencer, conversation state, agent loop stream
processing and agent chaining, together with theorems settling the
specification claims.

Sources embedded:
- `src/taf/tools.py` (ToolUtils: schema inference)
- `src/taf/agent.py` (Agent: registration, conversation state, agent loop)
- `src/agent.py` (root Agent: registration and schema extraction)
- `src/taf/chain.py` (AgentChain)

Python data is modelled as follows: strings are `String`, dicts with string
keys are association lists with Python-dict insertion semantics
(`dictInsert`), `None`-able values are `Option`, raised exceptions are
`Except.error` carrying `str(e)`.  External boundaries (the OpenAI client and
`json.loads`) are parameters of the embedding: the LLM transport is a list of
per-step streams, and JSON parsing is an abstract `String → Option` function.
-/

set_option maxHeartbeats 1000000
set_option maxRecDepth 100000

/-- Python values, as far as the repository produces them: strings, ints,
`None`, and dicts with string keys (tool results may be any of these). -/
inductive PyVal where
  | str (s : String)
  | int (n : Int)
  | noneV
  | dict (kvs : List (String × PyVal))

mutual

/-- Python `repr` of a `PyVal` (the form used for values nested in a dict). -/
def pyRepr : PyVal → String
  | .str s => "\x27" ++ s ++ "\x27"
  | .int n => toString n
  | .noneV => "None"
  | .dict kvs => "\x7b" ++ pyReprEntries kvs ++ "\x7d"

/-- Python `repr` of the comma-separated entries of a dict. -/
def pyReprEntries : List (String × PyVal) → String
  | [] => ""
  | [(k, v)] => "\x27" ++ k ++ "\x27: " ++ pyRepr v
  | (k, v) :: e :: rest => "\x27" ++ k ++ "\x27: " ++ pyRepr v ++ ", " ++ pyReprEntries (e :: rest)

end

/-- Python `str()` of a `PyVal`, as applied to tool outputs before they are
stored in the conversation (`str(output)` in `Agent.__handle_tool_calls`). -/
def pyStr : PyVal → String
  | .str s => s
  | .int n => toString n
  | .noneV => "None"
  | .dict kvs => pyRepr (.dict kvs)

/-- Python `str.strip()` with no arguments: remove leading and trailing
whitespace (modelled with `Char.isWhitespace`, which covers the ASCII
whitespace the repository's strings contain). -/
def pyStrip (s : String) : String :=
  ⟨((s.data.dropWhile Char.isWhitespace).reverse.dropWhile Char.isWhitespace).reverse⟩

/-- Python dict assignment `d[k] = v`: replace the value of an existing key in
place, otherwise append the new binding at the end (insertion order). -/
def dictInsert {α : Type} : List (String × α) → String → α → List (String × α)
  | [], k, v => [(k, v)]
  | (k₁, v₁) :: t, k, v => if k₁ = k then (k, v) :: t else (k₁, v₁) :: dictInsert t k v

/-- Python `d.get(k)`: the value bound to `k`, or `None`. -/
def lookupDict {α : Type} (m : List (String × α)) (k : String) : Option α :=
  (m.find? (fun kv => kv.1 = k)).map (fun kv => kv.2)

/-- Number of bindings a key has in an association list (1 for a well-formed
dict that contains the key). -/
def keyCount {α : Type} (m : List (String × α)) (k : String) : Nat :=
  (m.filter (fun kv => kv.1 = k)).length

/-- The association list has pairwise distinct keys (the invariant of every
list produced from `[]` by `dictInsert`). -/
def keysNodup {α : Type} (m : List (String × α)) : Prop :=
  (m.map (fun kv => kv.1)).Nodup

/-- A Python type annotation, as far as `typing.get_origin`/`get_args`
classify it in `src/taf/tools.py` and `src/agent.py`:
`empty` is `inspect.Parameter.empty` (no annotation), `noneT` is
`None`/`NoneType`, the four primitives, `lit` is `Literal[...]` over string
values, `listOf a` is a parametrized `list[a]`, `dictOf k v` is a
parametrized `dict[k, v]`, `unionOf a b rest` is `Union[a, b, *rest]`
(which always has at least two members in Python), and `other nm` is any
remaining annotation, carrying the lower-cased result of
`getattr(annotation, "__name__", str(annotation)).lower()`. -/
inductive PyAnn where
  | empty
  | noneT
  | strT
  | intT
  | floatT
  | boolT
  | lit (vals : List String)
  | listOf (a : PyAnn)
  | dictOf (k v : PyAnn)
  | unionOf (a b : PyAnn) (rest : List PyAnn)
  | other (nm : String)

/-- `arg is type(None)`: whether a union member is the `None` marker. -/
def isNoneType : PyAnn → Bool
  | .noneT => true
  | _ => false

/-- The JSON-Schema-like values the two schema extractors build:
`prim t` is `\x7b"type": t\x7d`, `enumS vals` is
`\x7b"type": "string", "enum": vals\x7d`, `arr s` is
`\x7b"type": "array", "items": s\x7d`, and `obj s` is
`\x7b"type": "object", "additionalProperties": s\x7d`. -/
inductive JsonSchema where
  | prim (t : String)
  | enumS (vals : List String)
  | arr (items : JsonSchema)
  | obj (additionalProperties : JsonSchema)

/-- `ToolUtils._get_type_schema` (src/taf/tools.py lines 35-73), translated
clause by clause.  The `Union` clause: a two-member union containing
`type(None)` unwraps to the schema of its first non-`None` member (Python
crashes on an all-`None` union, which `typing` cannot construct; the model
returns the schema of `b` there); any other union degrades to its first
member.  The unparametrized-`list`/`dict` defensive defaults in the source
are unreachable because `get_origin` only reports `list`/`dict` for
parametrized generics, so `listOf`/`dictOf` always carry their arguments. -/
def getTypeSchema : PyAnn → JsonSchema
  | .empty => .prim "string"
  | .noneT => .prim "string"
  | .unionOf a b rest =>
    if rest.isEmpty && (isNoneType a || isNoneType b) then
      if isNoneType a then getTypeSchema b else getTypeSchema a
    else
      getTypeSchema a
  | .lit vals => .enumS vals
  | .listOf a => .arr (getTypeSchema a)
  | .dictOf _ v => .obj (getTypeSchema v)
  | .strT => .prim "string"
  | .intT => .prim "integer"
  | .floatT => .prim "number"
  | .boolT => .prim "boolean"
  | .other _ => .prim "string"

/-- One parameter of a Python callable: its name, its annotation, and whether
it declares a default value (`param.default is not inspect.Parameter.empty`). -/
structure PyParam where
  name : String
  ann : PyAnn
  hasDefault : Bool

/-- A raised Python exception as the typed `except` clauses of
`__execute_func` see it: whether its dynamic type is `json.JSONDecodeError`
(the type named by the first clause) and its `str(e)` message. -/
structure PyExc where
  isJsonDecodeError : Bool
  msg : String

/-- A Python callable as the registries see it: `__name__`, `inspect.getdoc`,
`inspect.signature(...).parameters` in declaration order, and its behaviour.
Calling it binds the JSON-parsed keyword arguments plus, when requested,
`ctx=dependency`; a raised exception is `Except.error` carrying the typed
exception (including `TypeError`s from keyword arguments that do not match
the signature). -/
structure PyFunc (Ctx : Type) where
  name : String
  doc : Option String
  params : List PyParam
  call : List (String × PyVal) → Option Ctx → Except PyExc PyVal

/-- `ToolUtils.has_ctx_parameter` (src/taf/tools.py lines 75-78) and
`Agent.__has_parameter_ctx_on_func` (src/agent.py lines 138-140):
`"ctx" in signature.parameters`. -/
def hasCtxParameter {Ctx : Type} (f : PyFunc Ctx) : Bool :=
  f.params.any (fun p => p.name = "ctx")

/-- The function-calling descriptor both schema extractors assemble.  The
constant envelope `\x7b"type": "function"\x7d` and
`parameters: \x7b"type": "object"\x7d` is implicit; `properties` keeps the
Python dict's insertion order. -/
structure ToolSchema where
  name : String
  description : Option String
  properties : List (String × JsonSchema)
  required : List String

/-- The parameter loop of `ToolUtils.function_to_openai_schema`
(src/taf/tools.py lines 11-19): skip a parameter literally named `ctx`,
insert the inferred schema under the parameter name, and append the name to
`required` when it has no default. -/
def schemaParamsLoop : List PyParam → List (String × JsonSchema) → List String →
    List (String × JsonSchema) × List String
  | [], props, req => (props, req)
  | p :: rest, props, req =>
    if p.name = "ctx" then
      schemaParamsLoop rest props req
    else
      schemaParamsLoop rest (dictInsert props p.name (getTypeSchema p.ann))
        (if p.hasDefault then req else req ++ [p.name])

/-- `ToolUtils.function_to_openai_schema` (src/taf/tools.py lines 5-33). -/
def functionToOpenaiSchema {Ctx : Type} (f : PyFunc Ctx) : ToolSchema :=
  let pr := schemaParamsLoop f.params [] []
  ⟨f.name, f.doc, pr.1, pr.2⟩

/-- A registered tool descriptor: the dict
`\x7b"func": f, "hasContext": ...\x7d` stored by both agents
(src/taf/agent.py lines 41-44, src/agent.py lines 60-63). -/
structure ToolDesc (Ctx : Type) where
  func : List (String × PyVal) → Option Ctx → Except PyExc PyVal
  hasContext : Bool

/-- The descriptor `Agent.__add_available_tool` / `Agent.__store_tool_info`
build for a callable. -/
def toolDescOf {Ctx : Type} (f : PyFunc Ctx) : ToolDesc Ctx :=
  ⟨f.call, hasCtxParameter f⟩

/-- The `type_map` of `Agent.__extract_tool_schema` (src/agent.py lines
69-74), keyed by lower-cased type names. -/
def typeMapRoot (nm : String) : Option String :=
  lookupDict [("str", "string"), ("int", "integer"), ("float", "number"), ("bool", "boolean")] nm

/-- `getattr(annotation, "__name__", str(annotation)).lower()` as
`Agent.__extract_tool_schema` applies it to an annotation.  Only membership
in the four keys of `typeMapRoot` matters downstream; annotations other than
the four primitives yield strings outside that map (`list[...]` and
`dict[...]` have `__name__` `"list"`/`"dict"`, `None` has no `__name__` and
prints as `"none"`, `Literal`/`Union` forms print as their `typing` repr). -/
def pyAnnNameLower : PyAnn → String
  | .strT => "str"
  | .intT => "int"
  | .floatT => "float"
  | .boolT => "bool"
  | .noneT => "none"
  | .empty => ""
  | .lit _ => "typing.literal"
  | .listOf _ => "list"
  | .dictOf _ _ => "dict"
  | .unionOf _ _ _ => "typing.union"
  | .other nm => nm

/-- The parameter loop of `Agent.__extract_tool_schema` (src/agent.py lines
80-116): skip `ctx`; `Literal` maps to a string enum; a parametrized list
maps its element type name through `type_map` (default `"string"`); a
parametrized dict maps its value type name likewise; any other non-empty
annotation maps its own name through `type_map`; no annotation means
`"string"`.  The name is appended to `required` when the parameter has no
default, and the schema is inserted under the parameter name. -/
def rootSchemaParamsLoop : List PyParam → List (String × JsonSchema) → List String →
    List (String × JsonSchema) × List String
  | [], props, req => (props, req)
  | p :: rest, props, req =>
    if p.name = "ctx" then
      rootSchemaParamsLoop rest props req
    else
      let schema : JsonSchema :=
        match p.ann with
        | .lit vals => .enumS vals
        | .listOf a => .arr (.prim ((typeMapRoot (pyAnnNameLower a)).getD "string"))
        | .dictOf _ v => .obj (.prim ((typeMapRoot (pyAnnNameLower v)).getD "string"))
        | .empty => .prim "string"
        | ann => .prim ((typeMapRoot (pyAnnNameLower ann)).getD "string")
      let req₂ := if p.hasDefault then req else req ++ [p.name]
      rootSchemaParamsLoop rest (dictInsert props p.name schema) req₂

/-- `Agent.__extract_tool_schema` (src/agent.py lines 68-130). -/
def extractToolSchemaRoot {Ctx : Type} (f : PyFunc Ctx) : ToolSchema :=
  let pr := rootSchemaParamsLoop f.params [] []
  ⟨f.name, f.doc, pr.1, pr.2⟩

/-- The tool-registration state of the root `Agent` (src/agent.py):
`self.tool_mapping` and `self.tools_schema`. -/
structure RootToolRegistry (Ctx : Type) where
  toolMapping : List (String × ToolDesc Ctx)
  toolsSchema : List ToolSchema

/-- `Agent.__store_tool_info` (src/agent.py lines 58-66): assign the
descriptor under `f.__name__` (a plain dict assignment, silently replacing
any existing entry) and append the extracted schema.  It is total: no
collision check, no exception. -/
def storeToolInfo {Ctx : Type} (reg : RootToolRegistry Ctx) (f : PyFunc Ctx) :
    RootToolRegistry Ctx :=
  ⟨dictInsert reg.toolMapping f.name (toolDescOf f),
   reg.toolsSchema ++ [extractToolSchemaRoot f]⟩

/-- The f-string rendering of an optional tool name (`f"...'\x7btool_name\x7d'..."`
prints `None` for a missing name). -/
def optName : Option String → String
  | some n => n
  | none => "None"

/-- Invocation of a registered callable with parsed arguments:
`func(**params, ctx=dependency) if has_context else func(**params)`
(src/taf/agent.py lines 198-201, src/agent.py line 256). -/
def invokeTool {Ctx : Type} (fd : ToolDesc Ctx) (params : List (String × PyVal)) (dep : Ctx) :
    Except PyExc PyVal :=
  if fd.hasContext then fd.func params (some dep) else fd.func params none

/-- `Agent.__execute_func` (src/taf/agent.py lines 189-206 and identically
src/agent.py lines 247-261).  `jp` models the external `json.loads`, with
`none` when it raises `json.JSONDecodeError`.  Both the parse and the
callable run inside the same `try`, and Python dispatches `except` clauses on
the dynamic exception type: a `json.JSONDecodeError` raised by the callable
itself is also caught by the first clause and yields the invalid-JSON
payload, while every other exception from the callable reaches
`except Exception` and yields the executing-error payload.  A `None`
arguments string makes `json.loads` raise a `TypeError`, likewise caught by
`except Exception`.  The function is total: every failure is returned as a
string payload, never propagated. -/
def executeFunc {Ctx : Type} (jp : String → Option (List (String × PyVal)))
    (mapping : List (String × ToolDesc Ctx)) (toolName : Option String)
    (toolArgs : Option String) (dep : Ctx) : PyVal :=
  match toolName.bind (fun n => lookupDict mapping n) with
  | none => .str ("Error: Tool \x27" ++ optName toolName ++ "\x27 not found.")
  | some fd =>
    match toolArgs with
    | none =>
      .str ("Error executing tool \x27" ++ optName toolName ++
        "\x27: the JSON object must be str, bytes or bytearray, not NoneType")
    | some argStr =>
      match jp argStr with
      | none => .str "Error: Invalid JSON arguments provided."
      | some params =>
        match invokeTool fd params dep with
        | .ok v => v
        | .error e =>
          if e.isJsonDecodeError then .str "Error: Invalid JSON arguments provided."
          else .str ("Error executing tool \x27" ++ optName toolName ++ "\x27: " ++ e.msg)

/-- A streamed tool-call fragment (`ChoiceDeltaToolCall`): the stream-assigned
`index`, and the optional `id`, `function.name` and `function.arguments`
partial text. -/
structure Frag where
  index : Nat
  id : Option String
  fname : Option String
  fargs : Option String
deriving DecidableEq

/-- One `chunk.choices[0].delta` of the streamed completion: optional
`reasoning` text (provider specific), optional `content` text, and optional
tool-call fragments. -/
structure StreamDelta where
  reasoning : Option String
  content : Option String
  tool_calls : Option (List Frag)

/-- One chunk of the stream; `none` models a chunk with zero choices
(`len(chunk.choices) == 0`), which the loop skips. -/
def StreamChunk : Type := Option StreamDelta

/-- The `type` field of an `AgentChunkResponse`. -/
inductive ChunkType where
  | reasoning
  | response
  | tool_call
  | tool_call_result
deriving DecidableEq

/-- `AgentChunkResponse` (src/taf/types.py): the event values the agent loop
yields.  `content` is `None` for `tool_call` events and carries the raw tool
output for `tool_call_result` events, so it is an optional `PyVal`. -/
structure AgentChunk where
  origin : String
  content : Option PyVal
  type : ChunkType
  metadata : List (String × Option String)

/-- A conversation message, a Python dict whose optional keys are absent
(`none`) when the code does not set them: `role`, `content` (forced to `None`
when tool calls are attached), `tool_calls` (the aggregated fragments, as
their `model_dump()` dicts), and the `tool_call_id`/`name` keys of tool
messages. -/
structure Message where
  role : String
  content : Option String
  tool_calls : Option (List Frag)
  tool_call_id : Option String
  name : Option String
deriving DecidableEq

/-- The state of a taf `Agent` (src/taf/agent.py) that the embedded methods
touch: `self.name`, `self.__tool_mapping`, `self.__tool_schemas`, the
`SYSTEM_PROMPT` hook (the only hook `run_stream` invokes; `HookFunctions.call`
filters the context down to the parameters the handler declares, which is
folded into the handler function itself), `self.__llm_system_prompt`, and
`self.__conversation_history`.  `model`, `temperature` and the OpenAI client
only parametrize the external transport call and carry no loop semantics. -/
structure AgentState (Ctx : Type) where
  name : String
  toolMapping : List (String × ToolDesc Ctx)
  toolSchemas : List ToolSchema
  sysHook : Option (Ctx → Option String)
  llmSystemPrompt : String
  history : List Message

/-- The declared parameter names of `ToolUtils.function_to_openai_schema`
(src/taf/tools.py line 6): besides `cls`, only `function`. -/
def functionToOpenaiSchemaParams : List String := ["function"]

/-- Python keyword-argument binding: a call raises `TypeError` unless every
keyword it passes is among the callee's declared parameter names. -/
def acceptsKeywords (paramNames kwargs : List String) : Bool :=
  kwargs.all (fun k => paramNames.contains k)

/-- `Agent.__add_available_tool` (src/taf/agent.py lines 40-47): store the
descriptor under `function.__name__`, then call
`ToolUtils.function_to_openai_schema(function, strict=strict)`.  That call
passes the keyword `strict`, which the callee's signature does not declare,
so Python raises a `TypeError` (modelled through the keyword-binding check);
on the success path the schema would be appended.  All three registration
entry points (`Agent.__init__` over the `tools` list, the `Agent.tool()`
decorator, and `Agent.__setup_skills`) go through this method. -/
def addAvailableTool {Ctx : Type} (st : AgentState Ctx) (f : PyFunc Ctx)
    (strict : Bool) : Except String (AgentState Ctx) :=
  let st₁ := { st with toolMapping := dictInsert st.toolMapping f.name (toolDescOf f) }
  let _ := strict
  match acceptsKeywords functionToOpenaiSchemaParams ["strict"] with
  | true => .ok { st₁ with toolSchemas := st₁.toolSchemas ++ [functionToOpenaiSchema f] }
  | false =>
    .error "TypeError: function_to_openai_schema() got an unexpected keyword argument \x27strict\x27"

/-- The `async for chunk in stream` body of `Agent.run_stream`
(src/taf/agent.py lines 127-146), folded over the stream with the running
response buffer, the tool-call aggregator, and the emitted events as
accumulators: skip chunks with zero choices; emit non-empty reasoning deltas;
append non-empty content deltas to the buffer and emit them; extend the
aggregator with any tool-call fragments (`list.extend`, no merging). -/
def processStreamLoop (nm : String) : List StreamChunk → String → List Frag →
    List AgentChunk → String × List Frag × List AgentChunk
  | [], buf, aggr, evs => (buf, aggr, evs)
  | c :: rest, buf, aggr, evs =>
    match c with
    | none => processStreamLoop nm rest buf aggr evs
    | some d =>
      let evs₁ : List AgentChunk :=
        match d.reasoning with
        | some r => if r = "" then evs else evs ++ [⟨nm, some (.str r), .reasoning, []⟩]
        | none => evs
      let be : String × List AgentChunk :=
        match d.content with
        | some s => if s = "" then (buf, evs₁) else (buf ++ s, evs₁ ++ [⟨nm, some (.str s), .response, []⟩])
        | none => (buf, evs₁)
      let aggr₂ :=
        match d.tool_calls with
        | some l => aggr ++ l
        | none => aggr
      processStreamLoop nm rest be.1 aggr₂ be.2

/-- `Agent.__append_message` (src/taf/agent.py lines 222-227): build
`\x7b"role": role, "content": content\x7d`; when tool calls are present
(`if tool_calls:`) attach their dumps and force the content to `None`. -/
def appendMessage {Ctx : Type} (st : AgentState Ctx) (role : String)
    (content : Option String) (toolCalls : List Frag) : AgentState Ctx :=
  let msg : Message :=
    if toolCalls.isEmpty then ⟨role, content, none, none, none⟩
    else ⟨role, none, some toolCalls, none, none⟩
  { st with history := st.history ++ [msg] }

/-- `Agent.__handle_tool_calls` (src/taf/agent.py lines 155-173): for each
aggregated fragment in arrival order, yield a `tool_call` event, execute the
tool, yield a `tool_call_result` event with the raw output, and append a
`tool` message carrying `str(output)` tied to the fragment's id and name. -/
def handleToolCallsLoop {Ctx : Type} (jp : String → Option (List (String × PyVal)))
    (dep : Ctx) : AgentState Ctx → List Frag → AgentState Ctx × List AgentChunk
  | st, [] => (st, [])
  | st, f :: rest =>
    let meta := [("tool_name", f.fname), ("tool_args", f.fargs), ("tool_id", f.id)]
    let output := executeFunc jp st.toolMapping f.fname f.fargs dep
    let st₂ := { st with
      history := st.history ++ [⟨"tool", some (pyStr output), none, f.id, f.fname⟩] }
    let se := handleToolCallsLoop jp dep st₂ rest
    (se.1, ⟨st.name, none, .tool_call, meta⟩ :: ⟨st.name, some output, .tool_call_result, meta⟩ :: se.2)

/-- The `for step in range(max_steps)` loop of `Agent.run_stream`
(src/taf/agent.py lines 122-153): each step consumes one streamed completion
(the head of the remaining transport script; an exhausted script behaves as
an empty stream), appends the assistant message, and either terminates when
no tool calls were aggregated or executes them and continues. -/
def runStreamLoop {Ctx : Type} (jp : String → Option (List (String × PyVal))) (dep : Ctx) :
    List (List StreamChunk) → Nat → AgentState Ctx → AgentState Ctx × List AgentChunk
  | _, 0, st => (st, [])
  | llm, n + 1, st =>
    let stream := llm.headD []
    let bae := processStreamLoop st.name stream "" [] []
    let st₁ := appendMessage st "assistant" (some bae.1) bae.2.1
    if bae.2.1.isEmpty then (st₁, bae.2.2)
    else
      let se₂ := handleToolCallsLoop jp dep st₁ bae.2.1
      let se₃ := runStreamLoop jp dep llm.tail n se₂.1
      (se₃.1, bae.2.2 ++ se₂.2 ++ se₃.2)

/-- `Agent.__format_system_prompt` via `Agent.__call_hook` (src/taf/agent.py
lines 175-187): no hook, or a falsy hook output (`None` or `""`), leaves the
base prompt; otherwise the hook output is appended after a newline. -/
def formatSystemPrompt {Ctx : Type} (st : AgentState Ctx) (dep : Ctx) : String :=
  match st.sysHook with
  | none => st.llmSystemPrompt
  | some h =>
    match h dep with
    | none => st.llmSystemPrompt
    | some out => if out = "" then st.llmSystemPrompt else st.llmSystemPrompt ++ "\n" ++ out

/-- `self.__conversation_history[0]["content"] = system_prompt`
(src/taf/agent.py line 119); the history is never empty on this path. -/
def setHistoryHead {Ctx : Type} (st : AgentState Ctx) (sp : String) : AgentState Ctx :=
  { st with history :=
      match st.history with
      | [] => []
      | m :: t => { m with content := some sp } :: t }

/-- Lines 117-119 of `Agent.run_stream`: strip the formatted system prompt
and, when non-empty, overwrite message 0's content with it. -/
def applySystemPrompt {Ctx : Type} (st : AgentState Ctx) (dep : Ctx) : AgentState Ctx :=
  let sp := pyStrip (formatSystemPrompt st dep)
  if sp = "" then st else setHistoryHead st sp

/-- `Agent.run_stream` (src/taf/agent.py lines 110-153): format and install
the system prompt, append the user message, then run the step loop.  The
returned pair is the final agent state and the ordered events the generator
yields. -/
def runStream {Ctx : Type} (jp : String → Option (List (String × PyVal)))
    (st : AgentState Ctx) (prompt : String) (dep : Ctx)
    (llm : List (List StreamChunk)) (maxSteps : Nat) : AgentState Ctx × List AgentChunk :=
  runStreamLoop jp dep llm maxSteps
    (appendMessage (applySystemPrompt st dep) "user" (some prompt) [])

/-- `Agent.clear_history` (src/taf/agent.py lines 229-230): reset the history
to a single system message holding the static system prompt. -/
def clearHistory {Ctx : Type} (st : AgentState Ctx) : AgentState Ctx :=
  { st with history := [⟨"system", some st.llmSystemPrompt, none, none, none⟩] }

/-- `Agent.export_conv` (src/taf/agent.py lines 232-238): copy the history;
without tool calls drop every `tool`-role message; without the system prompt
delete index 0 (the history is never empty when this runs). -/
def exportConv {Ctx : Type} (st : AgentState Ctx)
    (includeSystemPrompt includeToolCalls : Bool) : List Message :=
  let conv := st.history
  let conv := if includeToolCalls then conv else conv.filter (fun m => m.role ≠ "tool")
  if includeSystemPrompt then conv else conv.drop 1

/-- `Agent.load_conv` (src/taf/agent.py lines 240-242): clear, then extend
the history with the caller-supplied messages verbatim. -/
def loadConv {Ctx : Type} (st : AgentState Ctx) (conv : List Message) : AgentState Ctx :=
  let st₁ := clearHistory st
  { st₁ with history := st₁.history ++ conv }

/-- The text appearing before `\x7bprevious_result\x7d` in the `result()`
task template (src/taf/chain.py lines 42-47), including the f-string's
leading newline that `.strip()` later removes. -/
def tplPre : String :=
  "\n<previous-result>\nThis is the result of the previous agent\x27s work. You must use this as source of information to keep on your current task. In case you need more information from the previous agent, you can call the `ask_previous_agent` tool to make questions.\n\nPrevious Result:\n"

/-- The text between `\x7bprevious_result\x7d` and `\x7btask\x7d` in the
`result()` task template (src/taf/chain.py lines 48-51). -/
def tplMid : String := "\n</previous-result>\n\nCurrent Task:\n"

/-- The wrapped task `result()` builds for every agent after the first
(src/taf/chain.py lines 42-52): the f-string with the previous result and
the agent's own task spliced in, then `.strip()`. -/
def previousResultTemplate (prev task : String) : String :=
  pyStrip (tplPre ++ prev ++ tplMid ++ task ++ "\n")

/-- The placeholder `result()` substitutes for an empty agent response
(src/taf/chain.py line 63). -/
def placeholderS : String := "Task completed successfully. No response needed."

/-- The task passed to the current agent (src/taf/chain.py lines 41-52):
the raw task for the first agent (`previous_result` is `None`) and for a
falsy previous result, the wrapping template otherwise. -/
def buildTask : Option String → String → String
  | none, task => task
  | some p, task => if p = "" then task else previousResultTemplate p task

/-- `chunk["content"]` as the chain concatenates it; `reasoning` and
`response` events always carry text. -/
def chunkText : Option PyVal → String
  | some (.str s) => s
  | _ => ""

/-- The response accumulation of `AgentChain.result` (src/taf/chain.py lines
54-58): concatenate the contents of `reasoning` and `response` chunks in
order. -/
def chainAnswer (chunks : List AgentChunk) : String :=
  chunks.foldl
    (fun acc c =>
      match c.type with
      | .reasoning => acc ++ chunkText c.content
      | .response => acc ++ chunkText c.content
      | _ => acc) ""

/-- The response accumulation of `AgentChain.__get_agent_final_answer`
(src/taf/chain.py lines 8-13): concatenate only `response` chunks. -/
def responseAnswer (chunks : List AgentChunk) : String :=
  chunks.foldl
    (fun acc c =>
      match c.type with
      | .response => acc ++ chunkText c.content
      | _ => acc) ""

/-- The `for agent, task in self.agents` loop of `AgentChain.result`
(src/taf/chain.py lines 38-63), with each agent's transport script supplied
alongside it.  Returns the constructed task of every agent in order, and the
final `previous_result` (the overall chain answer once the list is
exhausted).  Each agent runs `run_stream` with the default 30 steps; an empty
accumulated response is replaced by the placeholder
(`agent_response or "Task completed successfully. No response needed."`). -/
def chainRun {Ctx : Type} (jp : String → Option (List (String × PyVal))) (dep : Ctx) :
    Option String → List (AgentState Ctx × String × List (List StreamChunk)) →
    List String × Option String
  | prev, [] => ([], prev)
  | prev, (st, task, llm) :: rest =>
    let t := buildTask prev task
    let resp := chainAnswer (runStream jp st t dep llm 30).2
    let prev₂ := if resp = "" then placeholderS else resp
    let tr := chainRun jp dep (some prev₂) rest
    (t :: tr.1, tr.2)

/-- `AgentChain.result` (src/taf/chain.py lines 34-64): raise on an empty
chain, otherwise run the loop; the chain's answer is the last
`previous_result`. -/
def chainResult {Ctx : Type} (jp : String → Option (List (String × PyVal))) (dep : Ctx)
    (agents : List (AgentState Ctx × String × List (List StreamChunk))) :
    Except String String :=
  if agents.isEmpty then .error "No agents set for this chain."
  else .ok ((chainRun jp dep none agents).2.getD "")

/-- `AgentChain.__get_agent_final_answer` (src/taf/chain.py lines 8-13): run
the given agent's loop to completion on the prompt (with the chain's
dependency) and concatenate its `response` chunks; the pair also carries the
agent's post-run state, which in Python lives on inside the agent object. -/
def getAgentFinalAnswer {Ctx : Type} (jp : String → Option (List (String × PyVal)))
    (st : AgentState Ctx) (prompt : String) (dep : Ctx)
    (llm : List (List StreamChunk)) : AgentState Ctx × String :=
  let sc := runStream jp st prompt dep llm 30
  (sc.1, responseAnswer sc.2)

/-- The synthetic `ask_previous_agent` tool body registered by
`AgentChain.next` (src/taf/chain.py lines 19-29): query the previous agent
and return `\x7b"agent_response": response\x7d`; the previous agent's
mutated state is carried alongside. -/
def askPreviousAgent {Ctx : Type} (jp : String → Option (List (String × PyVal)))
    (prevSt : AgentState Ctx) (question : String) (dep : Ctx)
    (llm : List (List StreamChunk)) : AgentState Ctx × PyVal :=
  let sr := getAgentFinalAnswer jp prevSt question dep llm
  (sr.1, .dict [("agent_response", .str sr.2)])

/-- A fresh agent state over a trivial dependency type: no tools, no hooks,
history seeded with the system message as `Agent.__init__` does. -/
def mkAgent (nm sp : String) : AgentState Unit :=
  ⟨nm, [], [], none, sp, [⟨"system", some sp, none, none, none⟩]⟩

/-- A JSON-parse model that fails on every input. -/
def jpNone : String → Option (List (String × PyVal)) := fun _ => none

/-- A JSON-parse model that parses every input to the empty keyword dict. -/
def jpEmpty : String → Option (List (String × PyVal)) := fun _ => some []

/-- The first streamed fragment of the claim C2 scenario:
`\x7bindex: 0, id: "a", name: "f", args: "\x7b\"x\":"\x7d`. -/
def exFrag₁ : Frag := ⟨0, some "a", some "f", some "\x7b\"x\":"⟩

/-- The second streamed fragment of the claim C2 scenario:
`\x7bindex: 0, args: "1\x7d"\x7d`. -/
def exFrag₂ : Frag := ⟨0, none, none, some "1\x7d"⟩

/-- A two-chunk stream delivering the two C2 fragments in order. -/
def exStream : List StreamChunk :=
  [some ⟨none, none, some [exFrag₁]⟩, some ⟨none, none, some [exFrag₂]⟩]

/-- The single merged record the claim C2 expects:
`\x7bid: "a", name: "f", args: "\x7b\"x\":1\x7d"\x7d`. -/
def exMerged : Frag := ⟨0, some "a", some "f", some "\x7b\"x\":1\x7d"⟩

/-- A transport script whose single step streams the pure text `"ok"`. -/
def exLlmOk : List (List StreamChunk) := [[some ⟨none, some "ok", none⟩]]

/-- A transport script whose single step streams the pure text `"42"`. -/
def exLlm42 : List (List StreamChunk) := [[some ⟨none, some "42", none⟩]]

/-- A transport script whose single step streams nothing. -/
def exLlmEmpty : List (List StreamChunk) := [[]]

/-- A registered tool named `boom` that raises `Exception("kaboom")` whenever
it is invoked. -/
def exBoomMapping : List (String × ToolDesc Unit) :=
  [("boom", ⟨fun _ _ => .error ⟨false, "kaboom"⟩, false⟩)]

/-- A registered tool named `jt` that itself raises
`json.JSONDecodeError("Expecting value", ...)` whenever it is invoked. -/
def exJsonDecodeMapping : List (String × ToolDesc Unit) :=
  [("jt", ⟨fun _ _ => .error ⟨true, "Expecting value"⟩, false⟩)]

/-- A callable named `t` whose invocation returns `"first"`. -/
def exFuncFirst : PyFunc Unit := ⟨"t", none, [], fun _ _ => .ok (.str "first")⟩

/-- A callable that shares the name `t` and returns `"second"`. -/
def exFuncSecond : PyFunc Unit := ⟨"t", none, [], fun _ _ => .ok (.str "second")⟩

/-- A callable with a single `Optional[int]` parameter `x` carrying a
default, the claim C8 scenario. -/
def exOptIntFunc : PyFunc Unit :=
  ⟨"g", some "doc", [⟨"x", .unionOf .intT .noneT [], true⟩], fun _ _ => .ok .noneV⟩

/-- The sample conversation loaded in the claim C3 counterexample. -/
def exLoadedConv : List Message := [⟨"user", some "hi", none, none, none⟩]

/-- The template text of `tplPre` with its trailing `"Previous Result:\n"`
marker split off (used to locate the claim C9 substring inside the built
task). -/
def tplPreHead : String :=
  "\n<previous-result>\nThis is the result of the previous agent\x27s work. You must use this as source of information to keep on your current task. In case you need more information from the previous agent, you can call the `ask_previous_agent` tool to make questions.\n\n"

theorem lookupDict_nil {α : Type} (k : String) : lookupDict ([] : List (String × α)) k = none := rfl

theorem lookupDict_cons {α : Type} (k₁ : String) (v₁ : α) (t : List (String × α)) (k : String) :
    lookupDict ((k₁, v₁) :: t) k = if k₁ = k then some v₁ else lookupDict t k := by
  by_cases h : k₁ = k
  · simp [lookupDict, List.find?, h]
  · simp [lookupDict, List.find?, h]

theorem lookupDict_dictInsert_self {α : Type} (m : List (String × α)) (k : String) (v : α) :
    lookupDict (dictInsert m k v) k = some v := by
  induction m with
  | nil => simp [dictInsert, lookupDict_cons, lookupDict_nil]
  | cons hd t ih =>
    obtain ⟨k₁, v₁⟩ := hd
    by_cases h : k₁ = k
    · simp [dictInsert, h, lookupDict_cons]
    · simp [dictInsert, h, lookupDict_cons, ih]

theorem lookupDict_dictInsert_ne {α : Type} (m : List (String × α)) (k k₂ : String) (v : α)
    (h : k₂ ≠ k) : lookupDict (dictInsert m k v) k₂ = lookupDict m k₂ := by
  induction m with
  | nil =>
    have hne : ¬ (k = k₂) := fun hh => h hh.symm
    simp [dictInsert, lookupDict_cons, lookupDict_nil, hne]
  | cons hd t ih =>
    obtain ⟨k₁, v₁⟩ := hd
    by_cases hk : k₁ = k
    · subst hk
      have hne : ¬ (k₁ = k₂) := fun hh => h hh.symm
      simp [dictInsert, lookupDict_cons, hne]
    · simp [dictInsert, hk, lookupDict_cons, ih]

theorem mem_keys_dictInsert {α : Type} (m : List (String × α)) (k n : String) (v : α) :
    n ∈ (dictInsert m k v).map (fun kv => kv.1) ↔
      n ∈ m.map (fun kv => kv.1) ∨ n = k := by
  induction m with
  | nil => simp [dictInsert]
  | cons hd t ih =>
    obtain ⟨k₁, v₁⟩ := hd
    by_cases h : k₁ = k
    · subst h
      simp [dictInsert]
      tauto
    · simp [dictInsert, h, ih]
      tauto

theorem keysNodup_dictInsert {α : Type} (m : List (String × α)) (k : String) (v : α)
    (h : keysNodup m) : keysNodup (dictInsert m k v) := by
  induction m with
  | nil => simp [dictInsert, keysNodup]
  | cons hd t ih =>
    obtain ⟨k₁, v₁⟩ := hd
    unfold keysNodup at h
    simp only [List.map_cons, List.nodup_cons] at h
    by_cases hk : k₁ = k
    · subst hk
      unfold keysNodup
      simp only [dictInsert, ite_true, List.map_cons, List.nodup_cons]
      exact ⟨h.1, h.2⟩
    · unfold keysNodup
      rw [dictInsert, if_neg hk]
      simp only [List.map_cons, List.nodup_cons]
      refine ⟨?_, ih h.2⟩
      intro hmem
      rcases (mem_keys_dictInsert t k k₁ v).mp hmem with hin | heq
      · exact h.1 hin
      · exact hk heq

theorem keyCount_eq_zero_of_not_mem {α : Type} (m : List (String × α)) (k : String)
    (h : k ∉ m.map (fun kv => kv.1)) : keyCount m k = 0 := by
  induction m with
  | nil => rfl
  | cons hd t ih =>
    obtain ⟨k₁, v₁⟩ := hd
    simp only [List.map_cons, List.mem_cons, not_or] at h
    have hne : ¬ (k₁ = k) := fun hh => h.1 hh.symm
    have h2 := ih h.2
    unfold keyCount at h2 ⊢
    rw [List.filter_cons]
    simpa [hne] using h2

theorem keyCount_dictInsert_self {α : Type} (m : List (String × α)) (k : String) (v : α)
    (h : keysNodup m) : keyCount (dictInsert m k v) k = 1 := by
  induction m with
  | nil => simp [dictInsert, keyCount, List.filter]
  | cons hd t ih =>
    obtain ⟨k₁, v₁⟩ := hd
    unfold keysNodup at h
    simp only [List.map_cons, List.nodup_cons] at h
    by_cases hk : k₁ = k
    · subst hk
      have h0 : keyCount t k₁ = 0 := keyCount_eq_zero_of_not_mem t k₁ h.1
      unfold keyCount at h0 ⊢
      simp only [dictInsert, ite_true]
      rw [List.filter_cons]
      simpa using h0
    · have h2 := ih h.2
      unfold keyCount at h2 ⊢
      simp only [dictInsert, hk, ite_false, if_neg hk]
      rw [List.filter_cons]
      simpa [hk] using h2

theorem dropWhile_append_stop {α : Type} (p : α → Bool) (a t : List α) (h : α)
    (hh : p h = false) :
    ∃ a₂, List.dropWhile p (a ++ h :: t) = a₂ ++ h :: t := by
  induction a with
  | nil => exact ⟨[], by simp [List.dropWhile_cons, hh]⟩
  | cons x xs ih =>
    obtain ⟨a₂, ha⟩ := ih
    by_cases hx : p x
    · refine ⟨a₂, ?_⟩
      simp only [List.cons_append, List.dropWhile_cons, hx, if_true]
      exact ha
    · refine ⟨x :: xs, ?_⟩
      simp [List.dropWhile_cons, hx]

theorem infix_pyStrip_parts (s pat : String) (a b : List Char) (ph q₀ : Char)
    (pt qt : List Char)
    (hs : s.data = a ++ pat.data ++ b) (hp : pat.data = ph :: pt)
    (hq : pat.data.reverse = q₀ :: qt)
    (hph : ph.isWhitespace = false) (hq₀ : q₀.isWhitespace = false) :
    pat.data <:+: (pyStrip s).data := by
  obtain ⟨a₂, h₁⟩ : ∃ a₂,
      s.data.dropWhile Char.isWhitespace = a₂ ++ ph :: (pt ++ b) := by
    rw [hs, hp, List.append_assoc]
    simpa using dropWhile_append_stop Char.isWhitespace a (pt ++ b) ph hph
  have h₁' : s.data.dropWhile Char.isWhitespace = (a₂ ++ pat.data) ++ b := by
    rw [h₁, hp]
    simp [List.append_assoc]
  have h₂ : (s.data.dropWhile Char.isWhitespace).reverse
      = b.reverse ++ (q₀ :: (qt ++ a₂.reverse)) := by
    rw [h₁', List.reverse_append, List.reverse_append, hq]
    simp [List.append_assoc]
  obtain ⟨b₂, h₃⟩ : ∃ b₂,
      (s.data.dropWhile Char.isWhitespace).reverse.dropWhile Char.isWhitespace
        = b₂ ++ q₀ :: (qt ++ a₂.reverse) := by
    rw [h₂]
    exact dropWhile_append_stop Char.isWhitespace b.reverse (qt ++ a₂.reverse) q₀ hq₀
  have hpat : qt.reverse ++ [q₀] = pat.data := by
    have hr := congrArg List.reverse hq
    simpa [List.reverse_cons] using hr.symm
  have hdata : (pyStrip s).data = a₂ ++ pat.data ++ b₂.reverse := by
    show ((s.data.dropWhile Char.isWhitespace).reverse.dropWhile Char.isWhitespace).reverse = _
    calc ((s.data.dropWhile Char.isWhitespace).reverse.dropWhile Char.isWhitespace).reverse
        = (b₂ ++ q₀ :: (qt ++ a₂.reverse)).reverse := by rw [h₃]
      _ = (q₀ :: (qt ++ a₂.reverse)).reverse ++ b₂.reverse := List.reverse_append _ _
      _ = ((qt ++ a₂.reverse).reverse ++ [q₀]) ++ b₂.reverse := by rw [List.reverse_cons]
      _ = ((a₂ ++ qt.reverse) ++ [q₀]) ++ b₂.reverse := by
          rw [List.reverse_append, List.reverse_reverse]
      _ = a₂ ++ (qt.reverse ++ [q₀]) ++ b₂.reverse := by simp [List.append_assoc]
      _ = a₂ ++ pat.data ++ b₂.reverse := by rw [hpat]
  exact ⟨a₂, b₂.reverse, hdata.symm⟩

theorem schemaParamsLoop_stable (n : String) :
    ∀ (ps : List PyParam) (props : List (String × JsonSchema)) (req : List String),
    n ∉ ps.map PyParam.name →
    lookupDict (schemaParamsLoop ps props req).1 n = lookupDict props n
    ∧ (n ∈ (schemaParamsLoop ps props req).2 ↔ n ∈ req) := by
  intro ps
  induction ps with
  | nil =>
    intro props req _
    simp [schemaParamsLoop]
  | cons p rest ih =>
    intro props req h
    simp only [List.map_cons, List.mem_cons, not_or] at h
    by_cases hctx : p.name = "ctx"
    · simp only [schemaParamsLoop]
      rw [if_pos hctx]
      exact ih props req h.2
    · simp only [schemaParamsLoop]
      rw [if_neg hctx]
      have hr := ih (dictInsert props p.name (getTypeSchema p.ann))
        (if p.hasDefault then req else req ++ [p.name]) h.2
      refine ⟨?_, ?_⟩
      · rw [hr.1, lookupDict_dictInsert_ne _ _ _ _ h.1]
      · rw [hr.2]
        by_cases hd : p.hasDefault
        · simp [hd]
        · simp only [hd, if_false, Bool.false_eq_true, List.mem_append, List.mem_singleton]
          constructor
          · rintro (hin | heq)
            · exact hin
            · exact absurd heq h.1
          · exact fun hin => Or.inl hin

theorem schemaParamsLoop_spec (p : PyParam) :
    ∀ (ps : List PyParam) (props : List (String × JsonSchema)) (req : List String),
    p ∈ ps → (ps.map PyParam.name).Nodup → p.name ≠ "ctx" → p.name ∉ req →
    lookupDict (schemaParamsLoop ps props req).1 p.name = some (getTypeSchema p.ann)
    ∧ (p.hasDefault = true → p.name ∉ (schemaParamsLoop ps props req).2) := by
  intro ps
  induction ps with
  | nil =>
    intro _ _ hmem
    cases hmem
  | cons q rest ih =>
    intro props req hmem hnodup hctx hreq
    simp only [List.map_cons, List.nodup_cons] at hnodup
    rcases List.mem_cons.mp hmem with heq | hmem₂
    · subst heq
      simp only [schemaParamsLoop]
      rw [if_neg hctx]
      have hstab := schemaParamsLoop_stable p.name rest
        (dictInsert props p.name (getTypeSchema p.ann))
        (if p.hasDefault then req else req ++ [p.name]) hnodup.1
      refine ⟨?_, ?_⟩
      · rw [hstab.1, lookupDict_dictInsert_self]
      · intro hdef hmem₃
        rw [hstab.2] at hmem₃
        rw [hdef] at hmem₃
        simp only [if_true] at hmem₃
        exact hreq hmem₃
    · have hpn : p.name ∈ rest.map PyParam.name := List.mem_map.mpr ⟨p, hmem₂, rfl⟩
      have hqp : q.name ≠ p.name := fun hh => hnodup.1 (hh ▸ hpn)
      simp only [schemaParamsLoop]
      by_cases hqctx : q.name = "ctx"
      · rw [if_pos hqctx]
        exact ih props req hmem₂ hnodup.2 hctx hreq
      · rw [if_neg hqctx]
        apply ih _ _ hmem₂ hnodup.2 hctx
        by_cases hd : q.hasDefault
        · simpa [hd] using hreq
        · simp only [hd, if_false, Bool.false_eq_true, List.mem_append, List.mem_singleton]
          rintro (hin | heq)
          · exact hreq hin
          · exact hqp heq.symm

theorem handleToolCallsLoop_extends {Ctx : Type} (jp : String → Option (List (String × PyVal)))
    (dep : Ctx) :
    ∀ (frags : List Frag) (st : AgentState Ctx),
    ∃ u, (handleToolCallsLoop jp dep st frags).1.history = st.history ++ u := by
  intro frags
  induction frags with
  | nil =>
    intro st
    exact ⟨[], by simp [handleToolCallsLoop]⟩
  | cons f rest ih =>
    intro st
    obtain ⟨u, hu⟩ := ih { st with
      history := st.history ++
        [⟨"tool", some (pyStr (executeFunc jp st.toolMapping f.fname f.fargs dep)), none,
          f.id, f.fname⟩] }
    refine ⟨⟨"tool", some (pyStr (executeFunc jp st.toolMapping f.fname f.fargs dep)), none,
      f.id, f.fname⟩ :: u, ?_⟩
    simp only [handleToolCallsLoop]
    rw [hu]
    simp [List.append_assoc]

theorem runStreamLoop_extends {Ctx : Type} (jp : String → Option (List (String × PyVal)))
    (dep : Ctx) :
    ∀ (n : Nat) (llm : List (List StreamChunk)) (st : AgentState Ctx),
    ∃ t, (runStreamLoop jp dep llm n st).1.history = st.history ++ t ∧ (n ≠ 0 → t ≠ []) := by
  intro n
  induction n with
  | zero =>
    intro llm st
    exact ⟨[], by simp [runStreamLoop], fun h => absurd rfl h⟩
  | succ n ih =>
    intro llm st
    simp only [runStreamLoop]
    obtain ⟨bae, hbae⟩ : ∃ bae, processStreamLoop st.name (llm.headD []) "" [] [] = bae :=
      ⟨_, rfl⟩
    rw [hbae]
    split
    · rename_i hagg
      refine ⟨[⟨"assistant", some bae.1, none, none, none⟩], ?_, by simp⟩
      have he : bae.2.1 = [] := by simpa using hagg
      simp [appendMessage, he]
    · rename_i hagg
      have hne : ¬ bae.2.1 = [] := by simpa using hagg
      obtain ⟨u, hu⟩ := handleToolCallsLoop_extends jp dep bae.2.1
        (appendMessage st "assistant" (some bae.1) bae.2.1)
      obtain ⟨t₃, ht₃, _⟩ := ih llm.tail
        (handleToolCallsLoop jp dep (appendMessage st "assistant" (some bae.1) bae.2.1) bae.2.1).1
      refine ⟨⟨"assistant", none, some bae.2.1, none, none⟩ :: (u ++ t₃), ?_, by simp⟩
      rw [ht₃, hu]
      simp [appendMessage, hne, List.append_assoc]

theorem processStreamLoop_aggr (nm : String) :
    ∀ (s : List StreamChunk) (buf : String) (aggr : List Frag) (evs : List AgentChunk),
    (processStreamLoop nm s buf aggr evs).2.1
      = aggr ++ (s.filterMap (fun c => c.bind (fun d => d.tool_calls))).flatten := by
  intro s
  induction s with
  | nil =>
    intro buf aggr evs
    simp [processStreamLoop]
  | cons c rest ih =>
    intro buf aggr evs
    match c with
    | none =>
      simp only [processStreamLoop, List.filterMap_cons]
      rw [ih]
      rfl
    | some d =>
      simp only [processStreamLoop, List.filterMap_cons]
      cases htc : d.tool_calls with
      | none =>
        rw [ih]
        simp [htc, Option.bind]
      | some l =>
        rw [ih]
        simp [htc, Option.bind, List.append_assoc]

/-- C1: every tool registration on the taf `Agent` raises instead of
completing: `Agent.__add_available_tool` calls
`ToolUtils.function_to_openai_schema(function, strict=strict)` with a
`strict` keyword that the callee (whose only parameter besides `cls` is
`function`) does not declare, so Python raises a `TypeError` before the
schema is ever computed — for every callable and every registration entry
point, contradicting the claim that registration completes without raising. -/
theorem c1_registration_always_raises {Ctx : Type} (st : AgentState Ctx) (f : PyFunc Ctx)
    (strict : Bool) :
    addAvailableTool st f strict =
      .error "TypeError: function_to_openai_schema() got an unexpected keyword argument \x27strict\x27" := rfl

/-- C2 counterexample: the two fragments of the claim's scenario are not
merged into one record; the aggregator keeps them as two separate records
(the second without name and id), so the aggregation result is not the single
merged call the claim requires. -/
theorem c2_counterexample :
    (processStreamLoop "a" exStream "" [] []).2.1 = [exFrag₁, exFrag₂]
    ∧ (processStreamLoop "a" exStream "" [] []).2.1 ≠ [exMerged] := by
  refine ⟨rfl, ?_⟩
  decide

/-- C2 amended: `run_stream` accumulates tool-call fragments by appending
every delivered fragment list to the aggregator in arrival order
(`tool_calls_aggregator.extend(tool_call_chunks)`), with no merging by
stream-assigned index and no concatenation of argument texts: the final
aggregator is exactly the concatenation of all fragment lists in the
stream. -/
theorem c2_amended_no_merging (nm : String) (s : List StreamChunk) :
    (processStreamLoop nm s "" [] []).2.1
      = (s.filterMap (fun c => c.bind (fun d => d.tool_calls))).flatten :=
  processStreamLoop_aggr nm s "" [] []

/-- C3 counterexample: after `load_conv(X)` with `X = [user "hi"]`,
`export_conv(include_system_prompt=True, include_tool_calls=True)` returns
the reset system message followed by `X`, which is not equal to `X`. -/
theorem c3_counterexample :
    exportConv (loadConv (mkAgent "a" "sp") exLoadedConv) true true ≠ exLoadedConv := by
  decide

/-- C3 amended: immediately after `load_conv(X)` the export round-trips with
`include_system_prompt=False` (and `include_tool_calls=True`); with
`include_system_prompt=True` it returns the freshly reset system message
followed by `X`. -/
theorem c3_amended_roundtrip {Ctx : Type} (st : AgentState Ctx) (conv : List Message) :
    exportConv (loadConv st conv) false true = conv
    ∧ exportConv (loadConv st conv) true true
      = (⟨"system", some st.llmSystemPrompt, none, none, none⟩ : Message) :: conv := by
  constructor
  · simp [exportConv, loadConv, clearHistory]
  · simp [exportConv, loadConv, clearHistory]

/-- C4 counterexample: a registered tool whose callable itself raises
`json.JSONDecodeError` (after its raw JSON arguments parsed successfully) is
caught by the `except json.JSONDecodeError` clause, which precedes
`except Exception`, so the tool result is the invalid-JSON payload and not
the executing-error payload the claim requires for every exception. -/
theorem c4_counterexample :
    executeFunc jpEmpty exJsonDecodeMapping (some "jt") (some "x") ()
      = .str "Error: Invalid JSON arguments provided."
    ∧ ¬ executeFunc jpEmpty exJsonDecodeMapping (some "jt") (some "x") ()
        = .str "Error executing tool \x27jt\x27: Expecting value" := by
  refine ⟨rfl, ?_⟩
  intro h
  rw [show executeFunc jpEmpty exJsonDecodeMapping (some "jt") (some "x") ()
    = .str "Error: Invalid JSON arguments provided." from rfl] at h
  simp at h

/-- C4 amended: when a registered tool's callable raises any exception other
than `json.JSONDecodeError` (after its raw JSON arguments parsed
successfully), `__execute_func` returns the textual payload
`Error executing tool <name>: <message>` as a normal value (it is total, so
no exception leaves the loop), and `__handle_tool_calls` appends exactly that
payload as the `tool` message tied to the originating call; a callable that
raises `json.JSONDecodeError` is caught by the earlier `except` clause and
yields `Error: Invalid JSON arguments provided.` instead. -/
theorem c4_tool_error_payload {Ctx : Type} (jp : String → Option (List (String × PyVal)))
    (mapping : List (String × ToolDesc Ctx)) (n argStr : String) (dep : Ctx)
    (fd : ToolDesc Ctx) (params : List (String × PyVal)) (e : PyExc)
    (hlook : lookupDict mapping n = some fd)
    (hjp : jp argStr = some params)
    (hrun : invokeTool fd params dep = .error e) :
    (e.isJsonDecodeError = false →
      executeFunc jp mapping (some n) (some argStr) dep
        = .str ("Error executing tool \x27" ++ n ++ "\x27: " ++ e.msg)
      ∧ ∀ (st : AgentState Ctx) (idx : Nat) (tid : Option String),
          st.toolMapping = mapping →
          (handleToolCallsLoop jp dep st [⟨idx, tid, some n, some argStr⟩]).1.history
            = st.history ++ [⟨"tool",
                some ("Error executing tool \x27" ++ n ++ "\x27: " ++ e.msg), none, tid, some n⟩])
    ∧ (e.isJsonDecodeError = true →
      executeFunc jp mapping (some n) (some argStr) dep
        = .str "Error: Invalid JSON arguments provided.") := by
  constructor
  · intro hjde
    have hex : executeFunc jp mapping (some n) (some argStr) dep
        = .str ("Error executing tool \x27" ++ n ++ "\x27: " ++ e.msg) := by
      simp [executeFunc, hlook, hjp, hrun, hjde, optName]
    refine ⟨hex, ?_⟩
    intro st idx tid hst
    simp [handleToolCallsLoop, hst, hex, pyStr]
  · intro hjde
    simp [executeFunc, hlook, hjp, hrun, hjde]

/-- C4 witness: the tool `boom` raising `Exception("kaboom")` on parsed
arguments yields exactly the executing-error payload, while the tool `jt`
raising `json.JSONDecodeError` yields the invalid-JSON payload. -/
theorem c4_witness :
    executeFunc jpEmpty exBoomMapping (some "boom") (some "x") ()
      = .str "Error executing tool \x27boom\x27: kaboom"
    ∧ executeFunc jpEmpty exJsonDecodeMapping (some "jt") (some "x") ()
      = .str "Error: Invalid JSON arguments provided." := by
  have h₁ := c4_tool_error_payload jpEmpty exBoomMapping "boom" "x" ()
    ⟨fun _ _ => .error ⟨false, "kaboom"⟩, false⟩ [] ⟨false, "kaboom"⟩ rfl rfl rfl
  have h₂ := c4_tool_error_payload jpEmpty exJsonDecodeMapping "jt" "x" ()
    ⟨fun _ _ => .error ⟨true, "Expecting value"⟩, false⟩ [] ⟨true, "Expecting value"⟩ rfl rfl rfl
  exact ⟨((h₁.1 rfl).1).trans (by rfl), h₂.2 rfl⟩

/-- C7: executing a tool whose name is not registered returns exactly the
string payload `Error: Tool <name> not found.` as a normal value; the
function is total, so nothing is thrown. -/
theorem c7_tool_not_found {Ctx : Type} (jp : String → Option (List (String × PyVal)))
    (mapping : List (String × ToolDesc Ctx)) (n : String) (argStr : Option String) (dep : Ctx)
    (h : lookupDict mapping n = none) :
    executeFunc jp mapping (some n) argStr dep
      = .str ("Error: Tool \x27" ++ n ++ "\x27 not found.") := by
  simp [executeFunc, h, optName]

/-- C7 witness: requesting the unregistered tool `sub` yields exactly
`Error: Tool \x27sub\x27 not found.`. -/
theorem c7_witness :
    executeFunc jpNone ([] : List (String × ToolDesc Unit)) (some "sub") (some "\x7b\x7d") ()
      = .str "Error: Tool \x27sub\x27 not found." :=
  (c7_tool_not_found jpNone [] "sub" (some "\x7b\x7d") () rfl).trans (by rfl)

/-- C5 counterexample: invoking the `ask_previous_agent` body on a fresh
previous agent whose transport answers `"ok"` returns
`\x7b"agent_response": "ok"\x7d` but leaves the previous agent's conversation
log durably extended from one message to three (system, the question as a
user turn, the assistant answer) — the taf `run_stream` never clears the
history, so the previous agent's conversation state is not discarded. -/
theorem c5_counterexample :
    (askPreviousAgent jpNone (mkAgent "prev" "sp") "q" () exLlmOk).1.history
      = [⟨"system", some "sp", none, none, none⟩, ⟨"user", some "q", none, none, none⟩,
         ⟨"assistant", some "ok", none, none, none⟩]
    ∧ (askPreviousAgent jpNone (mkAgent "prev" "sp") "q" () exLlmOk).1.history
      ≠ (mkAgent "prev" "sp").history
    ∧ (askPreviousAgent jpNone (mkAgent "prev" "sp") "q" () exLlmOk).2
      = .dict [("agent_response", .str "ok")] := by
  refine ⟨rfl, by decide, rfl⟩

/-- C5 amended: `ask_previous_agent` runs the previous agent's loop to
completion on the question and returns its concatenated `response` text
wrapped as `\x7b"agent_response": text\x7d`; the previous agent's
conversation state is not discarded — every query durably extends its
conversation log with the question as a user turn and at least one further
appended message. -/
theorem c5_amended_history_extended {Ctx : Type} (jp : String → Option (List (String × PyVal)))
    (st : AgentState Ctx) (q : String) (dep : Ctx) (llm : List (List StreamChunk)) :
    (askPreviousAgent jp st q dep llm).2
      = .dict [("agent_response", .str (responseAnswer (runStream jp st q dep llm 30).2))]
    ∧ ∃ t, t ≠ [] ∧ (askPreviousAgent jp st q dep llm).1.history
        = (applySystemPrompt st dep).history
            ++ ((⟨"user", some q, none, none, none⟩ : Message) :: t) := by
  constructor
  · rfl
  · obtain ⟨t, ht, hne⟩ := runStreamLoop_extends jp dep 30 llm
      (appendMessage (applySystemPrompt st dep) "user" (some q) [])
    refine ⟨t, hne (by decide), ?_⟩
    show (runStreamLoop jp dep llm 30
      (appendMessage (applySystemPrompt st dep) "user" (some q) [])).1.history = _
    rw [ht]
    simp [appendMessage]

/-- C6: registering two callables with the same `__name__` on the root
`Agent` silently keeps exactly one descriptor for that name — the
last-registered one — and dispatch through `__execute_func` for that name is
indistinguishable from a registry holding only the later callable;
`__store_tool_info` is a total function, so no error is raised on the
collision. -/
theorem c6_last_registration_wins {Ctx : Type} (reg : RootToolRegistry Ctx) (f g : PyFunc Ctx)
    (hname : f.name = g.name) (hnd : keysNodup reg.toolMapping) :
    lookupDict (storeToolInfo (storeToolInfo reg f) g).toolMapping f.name = some (toolDescOf g)
    ∧ keyCount (storeToolInfo (storeToolInfo reg f) g).toolMapping f.name = 1
    ∧ ∀ (jp : String → Option (List (String × PyVal))) (argStr : Option String) (dep : Ctx),
        executeFunc jp (storeToolInfo (storeToolInfo reg f) g).toolMapping
            (some f.name) argStr dep
          = executeFunc jp [(f.name, toolDescOf g)] (some f.name) argStr dep := by
  have hmap : (storeToolInfo (storeToolInfo reg f) g).toolMapping
      = dictInsert (dictInsert reg.toolMapping f.name (toolDescOf f)) g.name (toolDescOf g) :=
    rfl
  have hlook : lookupDict (storeToolInfo (storeToolInfo reg f) g).toolMapping f.name
      = some (toolDescOf g) := by
    rw [hmap, hname, lookupDict_dictInsert_self]
  have hsing : lookupDict [(f.name, toolDescOf g)] f.name = some (toolDescOf g) :=
    lookupDict_dictInsert_self [] f.name (toolDescOf g)
  refine ⟨hlook, ?_, ?_⟩
  · rw [hmap, hname]
    exact keyCount_dictInsert_self _ _ _ (keysNodup_dictInsert _ _ _ hnd)
  · intro jp argStr dep
    simp only [executeFunc, Option.some_bind]
    rw [hlook, hsing]

/-- C6 witness: registering `exFuncFirst` then `exFuncSecond` (both named
`t`) leaves one descriptor mapping `t` to the second callable, and dispatch
matches the singleton registry of the second callable. -/
theorem c6_witness :
    lookupDict (storeToolInfo (storeToolInfo (⟨[], []⟩ : RootToolRegistry Unit) exFuncFirst)
        exFuncSecond).toolMapping "t" = some (toolDescOf exFuncSecond)
    ∧ keyCount (storeToolInfo (storeToolInfo (⟨[], []⟩ : RootToolRegistry Unit) exFuncFirst)
        exFuncSecond).toolMapping "t" = 1
    ∧ executeFunc jpEmpty (storeToolInfo (storeToolInfo (⟨[], []⟩ : RootToolRegistry Unit)
          exFuncFirst) exFuncSecond).toolMapping (some "t") (some "x") ()
      = executeFunc jpEmpty [("t", toolDescOf exFuncSecond)] (some "t") (some "x") () := by
  have h := c6_last_registration_wins (⟨[], []⟩ : RootToolRegistry Unit) exFuncFirst exFuncSecond
    rfl (by simp [keysNodup])
  exact ⟨h.1, h.2.1, h.2.2 jpEmpty (some "x") ()⟩

/-- C8: a parameter annotated `Optional[int]` (in either member order) that
carries a default appears in the inferred schema's `properties` as
`\x7b"type": "integer"\x7d` and is absent from `required`. -/
theorem c8_optional_int_schema {Ctx : Type} (f : PyFunc Ctx) (p : PyParam)
    (hnodup : (f.params.map PyParam.name).Nodup) (hmem : p ∈ f.params)
    (hctx : p.name ≠ "ctx")
    (hann : p.ann = .unionOf .intT .noneT [] ∨ p.ann = .unionOf .noneT .intT [])
    (hdef : p.hasDefault = true) :
    lookupDict (functionToOpenaiSchema f).properties p.name = some (.prim "integer")
    ∧ p.name ∉ (functionToOpenaiSchema f).required := by
  have hspec := schemaParamsLoop_spec p f.params [] [] hmem hnodup hctx (by simp)
  have hschema : getTypeSchema p.ann = .prim "integer" := by
    rcases hann with h | h <;> rw [h] <;> rfl
  constructor
  · show lookupDict (schemaParamsLoop f.params [] []).1 p.name = _
    rw [hspec.1, hschema]
  · show p.name ∉ (schemaParamsLoop f.params [] []).2
    exact hspec.2 hdef

/-- C8 witness: the callable with single parameter `x : Optional[int] = ...`
gets `properties["x"] = \x7b"type": "integer"\x7d` and `required = []`. -/
theorem c8_witness :
    lookupDict (functionToOpenaiSchema exOptIntFunc).properties "x"
      = some (.prim "integer")
    ∧ "x" ∉ (functionToOpenaiSchema exOptIntFunc).required :=
  c8_optional_int_schema exOptIntFunc ⟨"x", .unionOf .intT .noneT [], true⟩
    (by simp [exOptIntFunc]) (by simp [exOptIntFunc]) (by decide) (Or.inl rfl) rfl

/-- C9: in a chain, every task after the first is the fixed template wrapping
the previous agent's complete final answer; concretely, when agent A's
accumulated answer is `"42"`, the constructed task handed to agent B is the
template instantiated with `"42"`, and it contains the literal substring
`"Previous Result:\n42"` (the containment holds for every task text of B,
surviving the template's trailing `.strip()`). -/
theorem c9_previous_result_in_task {Ctx : Type} (jp : String → Option (List (String × PyVal)))
    (dep : Ctx) (stA stB : AgentState Ctx) (taskA taskB : String)
    (llmA llmB : List (List StreamChunk))
    (h42 : chainAnswer (runStream jp stA taskA dep llmA 30).2 = "42") :
    (∀ (p t : String), p ≠ "" → buildTask (some p) t = previousResultTemplate p t)
    ∧ (chainRun jp dep none [(stA, taskA, llmA), (stB, taskB, llmB)]).1
      = [taskA, previousResultTemplate "42" taskB]
    ∧ ("Previous Result:\n42").data <:+: (previousResultTemplate "42" taskB).data := by
  refine ⟨?_, ?_, ?_⟩
  · intro p t hp
    simp [buildTask, hp]
  · simp [chainRun, buildTask, h42]
  · show ("Previous Result:\n42").data
      <:+: (pyStrip (tplPre ++ "42" ++ tplMid ++ taskB ++ "\n")).data
    have keyD : tplPreHead.data ++ ("Previous Result:\n42").data
        = tplPre.data ++ ("42" : String).data := by decide
    have hs : (tplPre ++ "42" ++ tplMid ++ taskB ++ "\n").data
        = tplPreHead.data ++ ("Previous Result:\n42").data
          ++ (tplMid.data ++ (taskB.data ++ ("\n" : String).data)) := by
      have hk : (tplPreHead.data ++ ("Previous Result:\n42").data)
            ++ (tplMid.data ++ (taskB.data ++ ("\n" : String).data))
          = (tplPre.data ++ ("42" : String).data)
            ++ (tplMid.data ++ (taskB.data ++ ("\n" : String).data)) := by rw [keyD]
      simpa [List.append_assoc] using hk.symm
    exact infix_pyStrip_parts (tplPre ++ "42" ++ tplMid ++ taskB ++ "\n")
      "Previous Result:\n42" tplPreHead.data
      (tplMid.data ++ (taskB.data ++ ("\n" : String).data))
      'P' '2' (("revious Result:\n42").data) (("Previous Result:\n4").data.reverse)
      hs (by decide) (by decide) (by decide) (by decide)

/-- C9 witness: a concrete two-agent chain where agent A streams `"42"`:
its tasks are `["t1", template]` and the second task contains
`"Previous Result:\n42"`. -/
theorem c9_witness :
    chainAnswer (runStream jpNone (mkAgent "A" "s") "t1" () exLlm42 30).2 = "42"
    ∧ (chainRun jpNone () none
        [(mkAgent "A" "s", "t1", exLlm42), (mkAgent "B" "s", "t2", exLlmEmpty)]).1
      = ["t1", previousResultTemplate "42" "t2"]
    ∧ ("Previous Result:\n42").data <:+: (previousResultTemplate "42" "t2").data := by
  have h42 : chainAnswer (runStream jpNone (mkAgent "A" "s") "t1" () exLlm42 30).2 = "42" := rfl
  have h := c9_previous_result_in_task jpNone () (mkAgent "A" "s") (mkAgent "B" "s")
    "t1" "t2" exLlm42 exLlmEmpty h42
  exact ⟨h42, h.2.1, h.2.2⟩

/-- C10: at every chain position, an empty accumulated response is replaced
by the fixed placeholder: the remaining chain is run with the placeholder
threaded as the previous result, an empty response of the last queued agent
makes the chain's final result the placeholder, and when another agent
follows, its constructed task embeds the placeholder (as a substring). -/
theorem c10_empty_response_placeholder {Ctx : Type} (jp : String → Option (List (String × PyVal)))
    (dep : Ctx) (prev : Option String) (st : AgentState Ctx) (task : String)
    (llm : List (List StreamChunk))
    (rest : List (AgentState Ctx × String × List (List StreamChunk)))
    (hempty : chainAnswer (runStream jp st (buildTask prev task) dep llm 30).2 = "") :
    chainRun jp dep prev ((st, task, llm) :: rest)
      = (buildTask prev task :: (chainRun jp dep (some placeholderS) rest).1,
         (chainRun jp dep (some placeholderS) rest).2)
    ∧ (rest = [] → (chainRun jp dep prev [(st, task, llm)]).2 = some placeholderS)
    ∧ (∀ st₂ t₂ llm₂ r₂, rest = (st₂, t₂, llm₂) :: r₂ →
        placeholderS.data <:+:
          ((chainRun jp dep prev ((st, task, llm) :: rest)).1.getD 1 "").data) := by
  have hstep : chainRun jp dep prev ((st, task, llm) :: rest)
      = (buildTask prev task :: (chainRun jp dep (some placeholderS) rest).1,
         (chainRun jp dep (some placeholderS) rest).2) := by
    simp [chainRun, hempty]
  refine ⟨hstep, ?_, ?_⟩
  · intro hrest
    subst hrest
    rw [hstep]
    simp [chainRun]
  · intro st₂ t₂ llm₂ r₂ hrest
    subst hrest
    rw [hstep]
    have hbuild : buildTask (some placeholderS) t₂ = previousResultTemplate placeholderS t₂ := by
      simp [buildTask, placeholderS]
    simp only [chainRun, hbuild, List.getD_cons_succ, List.getD_cons_zero]
    show placeholderS.data
      <:+: (pyStrip (tplPre ++ placeholderS ++ tplMid ++ t₂ ++ "\n")).data
    have hs : (tplPre ++ placeholderS ++ tplMid ++ t₂ ++ "\n").data
        = tplPre.data ++ placeholderS.data
          ++ (tplMid.data ++ (t₂.data ++ ("\n" : String).data)) := by
      simp [List.append_assoc]
    exact infix_pyStrip_parts (tplPre ++ placeholderS ++ tplMid ++ t₂ ++ "\n")
      placeholderS tplPre.data (tplMid.data ++ (t₂.data ++ ("\n" : String).data))
      'T' '.' (("ask completed successfully. No response needed.").data)
      (("Task completed successfully. No response needed").data.reverse)
      hs (by decide) (by decide) (by decide) (by decide)

/-- C10 witness: a concrete chain whose first agent streams nothing: the
placeholder is embedded in the second agent's constructed task, and a
single-agent chain with an empty answer ends in the placeholder. -/
theorem c10_witness :
    placeholderS.data <:+:
      ((chainRun jpNone () none
        [(mkAgent "A" "s", "t1", exLlmEmpty), (mkAgent "B" "s", "t2", exLlmEmpty)]).1.getD 1 "").data
    ∧ (chainRun jpNone () none [(mkAgent "A" "s", "t1", exLlmEmpty)]).2 = some placeholderS := by
  have h₁ := c10_empty_response_placeholder jpNone () none (mkAgent "A" "s") "t1" exLlmEmpty
    [(mkAgent "B" "s", "t2", exLlmEmpty)] rfl
  have h₂ := c10_empty_response_placeholder jpNone () none (mkAgent "A" "s") "t1" exLlmEmpty
    [] rfl
  exact ⟨h₁.2.2 (mkAgent "B" "s") "t2" exLlmEmpty [] rfl, h₂.2.1 rfl⟩
